import Mathlib

/-!
Verification development for the training-orchestration scripts of
`tutorial_pytorch` (`2-classification_anime/py/main.py`,
`2_classification_food101_dp/py/main.py`, `3-distribution_training/py/main.py`).

Each script is embedded shallowly: straight-line startup code becomes a pure
function producing the events/resources it creates in source order, the epoch
loops become folds over the Python `range` they iterate, and validation metrics
are abstracted as a function from epoch index to a rational accuracy value.
-/

set_option linter.unusedVariables false

namespace TutorialPytorch

/-! ## DataLoader batching semantics (shared by all three scripts)

All three scripts build their loaders with
`DataLoader(..., batch_size=B, drop_last=True)` for training and
`drop_last=False` for validation.  `batchSizesAux` embeds the batch sampler:
it emits full batches of size `B` while at least `B` samples remain, and the
final ragged remainder is kept only when `drop_last` is false.  The first
argument is fuel; `n` units of fuel suffice for a dataset of `n` samples
whenever `0 < B`. -/

def batchSizesAux (B : ℕ) (drop_last : Bool) : ℕ → ℕ → List ℕ
  | 0, _ => []
  | _ + 1, 0 => []
  | fuel + 1, n + 1 =>
      if B ≤ n + 1 then
        B :: batchSizesAux B drop_last fuel (n + 1 - B)
      else if drop_last then [] else [n + 1]

/-- Sizes of the successive batches a `DataLoader` with batch size `B` and the
given `drop_last` flag yields over a dataset of `n` samples. -/
def dataLoaderBatchSizes (B : ℕ) (drop_last : Bool) (n : ℕ) : List ℕ :=
  batchSizesAux B drop_last n n

/-! ## Distributed per-process batch-size / worker adjustment
(`3-distribution_training/py/main.py`, lines 80-82)

```
if args.distributed:
    args.batch_size = int(args.batch_size / ngpus_per_node)
    args.workers = int((args.workers + ngpus_per_node - 1) / ngpus_per_node)
```

Python `int(x / y)` on non-negative integers truncates toward zero, i.e. is
floor division, so both lines are natural-number division here.  The adjusted
pair is what `load_data` and the `DataLoader` constructors receive, since the
rewrite happens before `load_data(args)` is called. -/

def distAdjust (distributed : Bool) (batch_size workers ngpus_per_node : ℕ) :
    ℕ × ℕ :=
  if distributed then
    (batch_size / ngpus_per_node,
     (workers + ngpus_per_node - 1) / ngpus_per_node)
  else
    (batch_size, workers)

/-! ## Anime / distribution epoch loop (`2-classification_anime/py/main.py`
lines 108-122, `3-distribution_training/py/main.py` lines 129-145)

```
best_acc = 0.0
for epoch in range(1, args.epochs + 1):
    train(...)
    iteration += len(train_loader)
    acc = validate(...)
    scheduler.step()
    is_best = acc > best_acc
    best_acc1 = max(acc, best_acc)
    if is_best:
        torch.save(model_without_ddp...state_dict(), saved_weight)
```

Note the source assigns `max(acc, best_acc)` to the fresh local `best_acc1`,
which is never read again; `best_acc` itself is never reassigned inside the
loop.  The embedding mirrors that dead store faithfully.  Validation metrics
are abstracted as `accs : ℕ → ℚ` (epoch index to accuracy). -/

structure AnimeState where
  best_acc : ℚ
  iteration : ℕ
  /-- Epochs in which the best-weights file was written, in order. -/
  bestWrites : List ℕ
  deriving Repr, DecidableEq

def animeEpochBody (lenTrain : ℕ) (accs : ℕ → ℚ) (s : AnimeState)
    (epoch : ℕ) : AnimeState :=
  let iteration := s.iteration + lenTrain
  let acc := accs epoch
  let is_best := s.best_acc < acc
  let best_acc1 := max acc s.best_acc
  if is_best then
    { best_acc := s.best_acc, iteration,
      bestWrites := s.bestWrites ++ [epoch] }
  else
    { best_acc := s.best_acc, iteration, bestWrites := s.bestWrites }

/-- The epoch loop `for epoch in range(1, args.epochs + 1)` of the anime and
distribution scripts, starting from `best_acc = 0.0`, `iteration = 0`. -/
def animeLoop (epochs lenTrain : ℕ) (accs : ℕ → ℚ) : AnimeState :=
  (List.range' 1 epochs).foldl (animeEpochBody lenTrain accs)
    { best_acc := 0, iteration := 0, bestWrites := [] }

/-! ## Food101 DataParallel script (`2_classification_food101_dp/py/main.py`)

Checkpoint bundle and resume transition (lines 121-130):

```
if args.restart:
    checkpoint = torch.load('weight/{}_checkpoint.pth'...)
    model_without_dp.load_state_dict(checkpoint['model'])
    optimizer.load_state_dict(checkpoint['optimizer'])
    scheduler.load_state_dict(checkpoint['scheduler'])
    args.start_epoch = checkpoint['epoch'] + 1
    best_acc = checkpoint['best_acc']
    iteration = args.epochs * len(train_loader)
```

Model, optimizer and scheduler state blobs are abstracted as type
parameters. -/

structure Checkpoint (α β γ : Type) where
  model : α
  optimizer : β
  scheduler : γ
  epoch : ℕ
  best_acc : ℚ
  deriving Repr, DecidableEq

structure RunInit (α β γ : Type) where
  modelState : α
  optimizerState : β
  schedulerState : γ
  start_epoch : ℕ
  best_acc : ℚ
  iteration : ℕ
  deriving Repr, DecidableEq

/-- The `args.restart` branch of `2_classification_food101_dp/py/main.py`:
restores the three state blobs verbatim, sets `start_epoch` and `best_acc`
from the checkpoint, and recomputes `iteration` as
`args.epochs * len(train_loader)` (source line 130). -/
def dpRestart {α β γ : Type} (epochs lenTrain : ℕ)
    (checkpoint : Checkpoint α β γ) : RunInit α β γ :=
  { modelState := checkpoint.model
    optimizerState := checkpoint.optimizer
    schedulerState := checkpoint.scheduler
    start_epoch := checkpoint.epoch + 1
    best_acc := checkpoint.best_acc
    iteration := epochs * lenTrain }

/-! Epoch loop of the dp script (lines 134-157):

```
for epoch in range(args.start_epoch, args.epochs + 1):
    train(...)
    iteration += len(train_loader)
    acc = validate(...)
    scheduler.step()
    is_best = acc > best_acc
    best_acc = max(acc, best_acc)
    if is_best:
        torch.save(model_without_dp.cpu().state_dict(), weight_name)
        checkpoint = {...}
        torch.save(checkpoint, 'weight/{}_checkpoint.pth'...)
```

Here `best_acc` *is* updated, and both the best-weights file and the full
resume-checkpoint bundle are written inside the same `if is_best:` branch. -/

structure DpState where
  best_acc : ℚ
  iteration : ℕ
  /-- Epochs in which the best-weights file was written, in order. -/
  bestWrites : List ℕ
  /-- Epochs in which the resume-checkpoint bundle was written, in order. -/
  checkpointWrites : List ℕ
  deriving Repr, DecidableEq

def dpEpochBody (lenTrain : ℕ) (accs : ℕ → ℚ) (s : DpState)
    (epoch : ℕ) : DpState :=
  let iteration := s.iteration + lenTrain
  let acc := accs epoch
  let is_best := s.best_acc < acc
  let best_acc := max acc s.best_acc
  if is_best then
    { best_acc, iteration,
      bestWrites := s.bestWrites ++ [epoch],
      checkpointWrites := s.checkpointWrites ++ [epoch] }
  else
    { best_acc, iteration,
      bestWrites := s.bestWrites, checkpointWrites := s.checkpointWrites }

/-- The epoch loop `for epoch in range(args.start_epoch, args.epochs + 1)` of
the dp script, run from an arbitrary initial state. -/
def dpLoop (start_epoch epochs lenTrain : ℕ) (accs : ℕ → ℚ)
    (init : DpState) : DpState :=
  (List.range' start_epoch (epochs + 1 - start_epoch)).foldl
    (dpEpochBody lenTrain accs) init

/-- The dp script run from `main`'s initialisation: `best_acc = 0.0`,
`iteration = 0` when not restarting, otherwise the values produced by the
`args.restart` branch (`dpRestart`).  `restart` is the `args.restart` flag,
i.e. the run is a resumable configuration exactly when it is `true`. -/
def dpRun {α β γ : Type} (restart : Bool) (checkpoint : Checkpoint α β γ)
    (start_epoch0 epochs lenTrain : ℕ) (accs : ℕ → ℚ) : DpState :=
  if restart then
    let r := dpRestart epochs lenTrain checkpoint
    dpLoop r.start_epoch epochs lenTrain accs
      { best_acc := r.best_acc, iteration := r.iteration,
        bestWrites := [], checkpointWrites := [] }
  else
    dpLoop start_epoch0 epochs lenTrain accs
      { best_acc := 0, iteration := 0,
        bestWrites := [], checkpointWrites := [] }

/-- Spec-side select-best rule (§4.5 step 5 of the spec): walking a list of
epochs with a running best score, an epoch is flagged `is_best` exactly when
its metric strictly exceeds the running best, and the running best is updated
to the maximum.  Returns the flagged epochs in order.  This definition follows
the spec's words and is compared against the loop embedded from the source. -/
def specSelectBestEpochs (accs : ℕ → ℚ) (best : ℚ) : List ℕ → List ℕ
  | [] => []
  | e :: rest =>
      (if best < accs e then [e] else []) ++
        specSelectBestEpochs accs (max (accs e) best) rest

/-! ## Startup ordering and the apex fail-fast check

`2_classification_food101_dp/py/main.py` lines 70-90 (and identically
`2-classification_anime/py/main.py` lines 24-80): after seeding,

```
if args.apex and amp is None:
    raise RuntimeError("Failed to import apex. ...")
os.makedirs(args.path2weight, exist_ok=True)
...
device = torch.device(...)
train_loader, val_loader = load_data(args)
model = mobilenet_v2(...)
optimizer = optim.SGD(...)
```

The straight-line prefix of `main` is embedded as the list of resources it
constructs, in source order, paired with the error raised, if any.  `apex` is
`args.apex` (mixed precision requested) and `ampAvailable` is whether the
`from apex import amp` import succeeded (`amp is not None`). -/

inductive StartupRes
  | mkWeightDir
  | deviceInit
  | dataLoaderInit
  | modelInit
  | optimizerInit
  deriving Repr, DecidableEq

def dpStartup (apex ampAvailable : Bool) : List StartupRes × Option String :=
  if apex && !ampAvailable then
    ([], some "Failed to import apex.")
  else
    ([StartupRes.mkWeightDir, StartupRes.deviceInit,
      StartupRes.dataLoaderInit, StartupRes.modelInit,
      StartupRes.optimizerInit], none)

/-- `amp.initialize` gating (`if args.apex: model, optimizer =
amp.initialize(model, optimizer, ...)`), with the wrapped-pair constructor
abstracted as `ampInitialize`. -/
def precisionWrap {α β : Type} (ampInitialize : α → β → α × β)
    (apex : Bool) (model : α) (optimizer : β) : α × β :=
  if apex then ampInitialize model optimizer else (model, optimizer)

/-! ## Event trace of `3-distribution_training/py/main.py`

The control flow after optimizer construction (lines 104-145) as an event
trace:

```
iteration = 0
... (apex wrap, DDP wrap) ...
if args.evaluate:
    param = torch.load(args.resume, ...)
    model_without_ddp.load_state_dict(param)
    validate(args, model, device, val_loader, ...)
    return
scheduler = optim.lr_scheduler.MultiStepLR(...)
best_acc = 0.0
for epoch in range(1, args.epochs + 1):
    if args.distributed:
        train_sampler.set_epoch(epoch)
    train(...)
    iteration += len(train_loader)
    acc = validate(...)
    scheduler.step()
    is_best = acc > best_acc
    best_acc1 = max(acc, best_acc)
    if is_best:
        save_on_master(model_without_ddp.state_dict(), saved_weight)
```

`loadWeightsIntoUnwrapped` records the `model_without_ddp.load_state_dict`
call, `saveBest` the `save_on_master` call (rank gating is modelled
separately below).  One `trainPass e` event stands for the whole `train(...)`
call of epoch `e`, which performs every optimizer step of that epoch, so a
trace without `trainPass` events performs zero optimizer steps. -/

inductive DEv
  | loadWeightsIntoUnwrapped
  | validatePass
  | schedulerInit
  | setEpoch (e : ℕ)
  | trainPass (e : ℕ)
  | schedulerStep
  | saveBest
  deriving Repr, DecidableEq

def distLoopEvents (distributed : Bool) (accs : ℕ → ℚ) (best_acc : ℚ) :
    List ℕ → List DEv
  | [] => []
  | e :: rest =>
      let acc := accs e
      let is_best := best_acc < acc
      let best_acc1 := max acc best_acc
      ((if distributed then [DEv.setEpoch e] else []) ++
        [DEv.trainPass e, DEv.validatePass, DEv.schedulerStep] ++
        (if is_best then [DEv.saveBest] else [])) ++
        distLoopEvents distributed accs best_acc rest

structure DistConfig where
  distributed : Bool
  evaluate : Bool
  epochs : ℕ
  deriving Repr, DecidableEq

/-- The event trace of the distribution script from the `args.evaluate` test
to the end of the epoch loop. -/
def distMain (cfg : DistConfig) (accs : ℕ → ℚ) : List DEv :=
  if cfg.evaluate then
    [DEv.loadWeightsIntoUnwrapped, DEv.validatePass]
  else
    DEv.schedulerInit ::
      distLoopEvents cfg.distributed accs 0 (List.range' 1 cfg.epochs)

/-- `x` occurs in `l` and `y` occurs strictly after that occurrence of `x`. -/
def Precedes {α : Type} (x y : α) (l : List α) : Prop :=
  ∃ l₁ l₂, l = l₁ ++ x :: l₂ ∧ y ∈ l₂

/-! ## Rank-gated checkpoint writes in the distribution script

The only checkpoint write in `3-distribution_training/py/main.py` is
`save_on_master(model_without_ddp.state_dict(), saved_weight)` (line 144),
executed when `is_best` holds.  `save_on_master` lives in `utils.py`, which is
not part of the provided sources, so it is modelled from the spec. -/

inductive SavedObj
  | unwrapped
  | wrapped
  deriving Repr, DecidableEq

structure CkptWrite where
  epoch : ℕ
  rank : ℕ
  obj : SavedObj
  deriving Repr, DecidableEq

/-- Modelled from the spec: `save_on_master` of `utils.py` (not under
`src/`).  Spec §4.6 / §4.2: checkpoint writes are gated by
`is_main_rank()`, "true only for rank 0", and "only the main rank calls
this" — on rank 0 the write is appended, on any other rank nothing
happens. -/
def save_on_master (rank : ℕ) (w : CkptWrite) (writes : List CkptWrite) :
    List CkptWrite :=
  if rank = 0 then writes ++ [w] else writes

/-- The checkpoint writes one rank performs over a list of epochs, following
the distribution script's loop body: `is_best = acc > best_acc` with the
never-updated `best_acc` (dead store into `best_acc1`), and on `is_best` a
`save_on_master` of the unwrapped model's state. -/
def distRankWrites (rank : ℕ) (accs : ℕ → ℚ) (best_acc : ℚ) :
    List ℕ → List CkptWrite
  | [] => []
  | e :: rest =>
      let acc := accs e
      let is_best := best_acc < acc
      let best_acc1 := max acc best_acc
      (if is_best then
        save_on_master rank ⟨e, rank, SavedObj.unwrapped⟩ []
      else []) ++ distRankWrites rank accs best_acc rest

/-- All checkpoint writes of an `N`-rank distributed run: each rank runs an
identical copy of the epoch loop `range(1, epochs + 1)` on the same metric
sequence. -/
def distAllWrites (N : ℕ) (accs : ℕ → ℚ) (epochs : ℕ) : List CkptWrite :=
  (List.range N).flatMap fun r =>
    distRankWrites r accs 0 (List.range' 1 epochs)

/-- Spec-side running best score after the epochs of `l` have completed,
starting from the initial best score `0.0` (spec §4.5 step 5: best is updated
to the maximum of itself and the epoch's metric). -/
def specBestAfter (accs : ℕ → ℚ) : List ℕ → ℚ
  | [] => 0
  | e :: rest => specBestAfter accs rest ⊔ accs e

/-- Spec-side notion of "the validation metric improves in epoch `e`": the
metric strictly exceeds the running best over all previous epochs (which
starts at `0.0`). -/
def improvesAt (accs : ℕ → ℚ) (e : ℕ) : Prop :=
  specBestAfter accs (List.range' 1 (e - 1)) < accs e

/-! ## Output directories and write paths

Directory creation at startup:
* anime and distribution scripts: `if not os.path.exists('weight'):
  os.mkdir('weight')`, and the only persisted file is
  `'weight/AnimeFace_resnet18_best.pth'`.
* dp script: `os.makedirs(args.path2weight, exist_ok=True)`, then the
  best-weights file `'{}/{}_mobilenetv2_best.pth'.format(args.path2weight,
  args.exp_name)` and the resume bundle
  `'weight/{}_checkpoint.pth'.format(args.exp_name)`.

A write target is modelled as its directory plus file name, matching how the
source formats each path (a fixed or configured directory, a `/`, and a file
name). -/

structure WriteTarget where
  dir : String
  file : String
  deriving Repr, DecidableEq

def animeDirsCreated : List String := ["weight"]

def animeBestWrite : WriteTarget :=
  ⟨"weight", "AnimeFace_resnet18_best.pth"⟩

def dpDirsCreated (path2weight : String) : List String := [path2weight]

def dpBestWrite (path2weight exp_name : String) : WriteTarget :=
  ⟨path2weight, exp_name ++ "_mobilenetv2_best.pth"⟩

def dpCheckpointWrite (exp_name : String) : WriteTarget :=
  ⟨"weight", exp_name ++ "_checkpoint.pth"⟩

/-- A concrete two-epoch metric sequence used to evaluate the loops on
explicit inputs: accuracy 50 in epoch 1, accuracy 30 from epoch 2 on. -/
def accsEx : ℕ → ℚ := fun e => if e = 1 then 50 else 30

end TutorialPytorch

namespace TutorialPytorch

/-! # Theorems -/

/-- **C1.** The claim fails on the code: in the anime and distribution
scripts the select-best step assigns `max(acc, best_acc)` to the dead local
`best_acc1`, so `best_acc` is never updated.  On the metric sequence
(50, 30): after the run the tracked best score is still `0`, not the maximum
`50`, and the best-weights file is written in *both* epochs, although epoch
2's metric (30) does not exceed the previous maximum (50). -/
theorem c1_best_score_dead_store :
    (animeLoop 2 5 accsEx).best_acc = 0 ∧
    (animeLoop 2 5 accsEx).bestWrites = [1, 2] ∧
    accsEx 1 = 50 ∧ accsEx 2 = 30 ∧
    (animeLoop 2 5 accsEx).best_acc ≠ 50 ∧
    (animeLoop 2 5 accsEx).bestWrites ≠ [1] := by
  refine ⟨by decide, by decide, by decide, by decide, by decide, by decide⟩

/-- **C2.** The claim fails on the code: the `args.restart` branch of the dp
script restores model/optimizer/scheduler state, `start_epoch` and
`best_acc` as claimed, but recomputes the iteration counter as
`args.epochs * len(train_loader)` instead of
`checkpoint.epoch * len(train_loader)`.  With `checkpoint.epoch = 1`,
`args.epochs = 2` and 5 batches per epoch, the restored counter is `10`,
not the claimed `1 * 5 = 5`; and after the single resumed epoch (epoch 2)
the counter is `15`, not `2 * 5 = 10`. -/
theorem c2_resume_iteration_bug :
    (dpRestart 2 5 (⟨7, 8, 9, 1, 40⟩ : Checkpoint ℕ ℕ ℕ)).modelState = 7 ∧
    (dpRestart 2 5 (⟨7, 8, 9, 1, 40⟩ : Checkpoint ℕ ℕ ℕ)).optimizerState = 8 ∧
    (dpRestart 2 5 (⟨7, 8, 9, 1, 40⟩ : Checkpoint ℕ ℕ ℕ)).schedulerState = 9 ∧
    (dpRestart 2 5 (⟨7, 8, 9, 1, 40⟩ : Checkpoint ℕ ℕ ℕ)).start_epoch = 2 ∧
    (dpRestart 2 5 (⟨7, 8, 9, 1, 40⟩ : Checkpoint ℕ ℕ ℕ)).best_acc = 40 ∧
    (dpRestart 2 5 (⟨7, 8, 9, 1, 40⟩ : Checkpoint ℕ ℕ ℕ)).iteration = 10 ∧
    (10 : ℕ) ≠ 1 * 5 ∧
    (dpRun true (⟨7, 8, 9, 1, 40⟩ : Checkpoint ℕ ℕ ℕ) 1 2 5 accsEx).iteration
      = 15 ∧
    (15 : ℕ) ≠ 2 * 5 := by
  refine ⟨by decide, by decide, by decide, by decide, by decide, by decide,
    by decide, by decide, by decide⟩

/-- **C5.** Requesting mixed precision (`args.apex`) while the `amp` import
failed raises the configuration error with no resource — weight directory,
device, data loader, model or optimizer — constructed; and when mixed
precision is not requested, `precisionWrap` returns the model and optimizer
unchanged. -/
theorem c5_apex_fail_fast :
    (dpStartup true false).1 = [] ∧
    (dpStartup true false).2 = some "Failed to import apex." ∧
    (∀ (α β : Type) (ampInitialize : α → β → α × β) (m : α) (o : β),
      precisionWrap ampInitialize false m o = (m, o)) := by
  refine ⟨rfl, rfl, ?_⟩
  intro α β ampInitialize m o
  rfl

/-- **C10.** In a distributed run (with at least one visible GPU, as the
source divides by `ngpus_per_node`), the per-process batch size is the floor
of `batch_size / ngpus_per_node` — characterised by
`pb * n ≤ b < pb * n + n` — and the per-process worker count is the ceiling
of `workers / ngpus_per_node` — characterised by `pw * n ∈ [w, w + n)`; in
particular `batch_size < ngpus_per_node` yields per-process batch size `0`,
and a non-distributed run leaves both values unchanged.  The adjusted pair is
what the `DataLoader` constructors receive, since the rewrite precedes
`load_data`. -/
theorem c10_per_process_batch_workers (b w n : ℕ) (hn : 0 < n) :
    (distAdjust true b w n).1 * n ≤ b ∧
    b < (distAdjust true b w n).1 * n + n ∧
    w ≤ (distAdjust true b w n).2 * n ∧
    (distAdjust true b w n).2 * n < w + n ∧
    (b < n → (distAdjust true b w n).1 = 0) ∧
    distAdjust false b w n = (b, w) := by
  have hb := Nat.div_add_mod' b n
  have hbm : b % n < n := Nat.mod_lt b hn
  have hw := Nat.div_add_mod' (w + n - 1) n
  have hwm : (w + n - 1) % n < n := Nat.mod_lt (w + n - 1) hn
  simp only [distAdjust, if_true, if_false]
  refine ⟨by omega, by omega, by omega, by omega,
    fun hlt => Nat.div_eq_of_lt hlt, rfl⟩

/-- Closed form of the batch sampler: full batches of size `B` for every
complete group, and the remainder `n % B` kept only when `drop_last` is
false. -/
theorem batchSizesAux_closed_form (B : ℕ) (hB : 0 < B) (dl : Bool) :
    ∀ fuel n, n ≤ fuel →
      batchSizesAux B dl fuel n =
        List.replicate (n / B) B ++
          (if n % B = 0 then [] else if dl then [] else [n % B]) := by
  intro fuel
  induction fuel with
  | zero =>
    intro n hn
    have hn0 : n = 0 := Nat.le_zero.mp hn
    subst hn0
    simp [batchSizesAux]
  | succ fuel ih =>
    intro n hn
    match n with
    | 0 => simp [batchSizesAux]
    | m + 1 =>
      by_cases h : B ≤ m + 1
      · have hdiv : (m + 1) / B = (m + 1 - B) / B + 1 := by
          have hd := Nat.add_div_right (m + 1 - B) hB
          rwa [Nat.sub_add_cancel h] at hd
        have hmod : (m + 1) % B = (m + 1 - B) % B := by
          have hm := Nat.add_mod_right (m + 1 - B) B
          rwa [Nat.sub_add_cancel h] at hm
        rw [show batchSizesAux B dl (fuel + 1) (m + 1) =
              B :: batchSizesAux B dl fuel (m + 1 - B) by
            simp [batchSizesAux, h]]
        rw [ih (m + 1 - B) (by omega), hdiv, hmod, List.replicate_succ]
        simp
      · have h1 : m + 1 < B := by omega
        have hdiv : (m + 1) / B = 0 := Nat.div_eq_of_lt h1
        have hmod : (m + 1) % B = m + 1 := Nat.mod_eq_of_lt h1
        rw [show batchSizesAux B dl (fuel + 1) (m + 1) =
              if dl then [] else [m + 1] by
            simp [batchSizesAux, h]]
        rw [hdiv, hmod]
        simp

/-- **C4.** For a dataset of `B * k + r` samples with `0 < r < B` and batch
size `B`: the training loader (`drop_last=True`) yields exactly `k` batches,
each of size exactly `B`; the validation loader (`drop_last=False`) over the
same-sized dataset yields `k + 1` batches, the first `k` of size `B` and the
last of size `r`. -/
theorem c4_drop_last_policy (B k r : ℕ) (h0 : 0 < r) (hr : r < B) :
    dataLoaderBatchSizes B true (B * k + r) = List.replicate k B ∧
    dataLoaderBatchSizes B false (B * k + r) = List.replicate k B ++ [r] ∧
    (dataLoaderBatchSizes B true (B * k + r)).length = k ∧
    (dataLoaderBatchSizes B false (B * k + r)).length = k + 1 := by
  have hB : 0 < B := lt_trans h0 hr
  have hdiv : (B * k + r) / B = k := by
    rw [Nat.mul_add_div hB, Nat.div_eq_of_lt hr, Nat.add_zero]
  have hmod : (B * k + r) % B = r := by
    rw [Nat.mul_add_mod, Nat.mod_eq_of_lt hr]
  have ht := batchSizesAux_closed_form B hB true (B * k + r) (B * k + r)
    le_rfl
  have hv := batchSizesAux_closed_form B hB false (B * k + r) (B * k + r)
    le_rfl
  rw [hdiv, hmod] at ht hv
  have hr0 : ¬ r = 0 := by omega
  rw [if_neg hr0] at ht hv
  simp at ht hv
  refine ⟨?_, ?_, ?_, ?_⟩
  · rw [dataLoaderBatchSizes, ht]
  · rw [dataLoaderBatchSizes, hv]
  · rw [dataLoaderBatchSizes, ht]
    simp
  · rw [dataLoaderBatchSizes, hv]
    simp

/-- Witness for C4 at `B = 4`, `k = 2`, `r = 3` (dataset of 11 samples). -/
theorem c4_drop_last_policy_witness :
    dataLoaderBatchSizes 4 true (4 * 2 + 3) = List.replicate 2 4 ∧
    dataLoaderBatchSizes 4 false (4 * 2 + 3) = List.replicate 2 4 ++ [3] ∧
    (dataLoaderBatchSizes 4 true (4 * 2 + 3)).length = 2 ∧
    (dataLoaderBatchSizes 4 false (4 * 2 + 3)).length = 2 + 1 :=
  c4_drop_last_policy 4 2 3 (by decide) (by decide)

/-- Fold invariant for the dp epoch loop: over any list of epochs, the
best-weights writes and the resume-checkpoint writes both extend by exactly
the epochs flagged by the spec's select-best rule from the current best
score, and the final best score is the fold of `max`. -/
theorem dpLoop_foldl_writes (lenTrain : ℕ) (accs : ℕ → ℚ) :
    ∀ (L : List ℕ) (s : DpState),
      (L.foldl (dpEpochBody lenTrain accs) s).checkpointWrites =
          s.checkpointWrites ++ specSelectBestEpochs accs s.best_acc L ∧
      (L.foldl (dpEpochBody lenTrain accs) s).bestWrites =
          s.bestWrites ++ specSelectBestEpochs accs s.best_acc L := by
  intro L
  induction L with
  | nil => intro s; simp [specSelectBestEpochs]
  | cons e rest ih =>
    intro s
    by_cases h : s.best_acc < accs e
    · have hbody : dpEpochBody lenTrain accs s e =
          { best_acc := max (accs e) s.best_acc,
            iteration := s.iteration + lenTrain,
            bestWrites := s.bestWrites ++ [e],
            checkpointWrites := s.checkpointWrites ++ [e] } := by
        simp [dpEpochBody, h]
      rw [List.foldl_cons, hbody]
      obtain ⟨ih1, ih2⟩ := ih
        { best_acc := max (accs e) s.best_acc,
          iteration := s.iteration + lenTrain,
          bestWrites := s.bestWrites ++ [e],
          checkpointWrites := s.checkpointWrites ++ [e] }
      rw [ih1, ih2]
      simp [specSelectBestEpochs, h]
    · have hbody : dpEpochBody lenTrain accs s e =
          { best_acc := max (accs e) s.best_acc,
            iteration := s.iteration + lenTrain,
            bestWrites := s.bestWrites,
            checkpointWrites := s.checkpointWrites } := by
        simp [dpEpochBody, h]
      rw [List.foldl_cons, hbody]
      obtain ⟨ih1, ih2⟩ := ih
        { best_acc := max (accs e) s.best_acc,
          iteration := s.iteration + lenTrain,
          bestWrites := s.bestWrites,
          checkpointWrites := s.checkpointWrites }
      rw [ih1, ih2]
      simp [specSelectBestEpochs, h]

/-- **C3 (counterexample).** In a resumable configuration (`args.restart`
true, resuming from a checkpoint with `epoch = 0`, `best_acc = 0`) running
epochs 1 and 2 with metrics (50, 30): the resume-checkpoint bundle is written
only in epoch 1, although epoch 2 belongs to the loop — refuting "persisted
once per epoch, for every epoch of the loop". -/
theorem c3_checkpoint_not_every_epoch_cex :
    (dpRun true (⟨0, 0, 0, 0, 0⟩ : Checkpoint ℕ ℕ ℕ) 1 2 5
        accsEx).checkpointWrites = [1] ∧
    2 ∈ List.range' 1 2 ∧
    2 ∉ (dpRun true (⟨0, 0, 0, 0, 0⟩ : Checkpoint ℕ ℕ ℕ) 1 2 5
        accsEx).checkpointWrites := by
  refine ⟨by decide, by decide, by decide⟩

/-- **C3 (amended).** The full resume-checkpoint bundle is persisted exactly
in the epochs where the validation metric strictly exceeds the running best
score — the same epochs in which the best-weights file is written — not once
per epoch: the dp loop's checkpoint writes coincide with its best-weights
writes and with the spec's select-best epochs, both for a fresh run and for a
resumed run started from a checkpoint's `best_acc`. -/
theorem c3_checkpoint_writes_on_improvement (start epochs lenTrain : ℕ)
    (accs : ℕ → ℚ) (best0 : ℚ) (ck : Checkpoint ℕ ℕ ℕ) :
    (dpLoop start epochs lenTrain accs
        ⟨best0, 0, [], []⟩).checkpointWrites =
      specSelectBestEpochs accs best0
        (List.range' start (epochs + 1 - start)) ∧
    (dpLoop start epochs lenTrain accs ⟨best0, 0, [], []⟩).checkpointWrites =
      (dpLoop start epochs lenTrain accs ⟨best0, 0, [], []⟩).bestWrites ∧
    (dpRun true ck start epochs lenTrain accs).checkpointWrites =
      specSelectBestEpochs accs ck.best_acc
        (List.range' (ck.epoch + 1) (epochs + 1 - (ck.epoch + 1))) := by
  obtain ⟨h1, h2⟩ := dpLoop_foldl_writes lenTrain accs
    (List.range' start (epochs + 1 - start)) ⟨best0, 0, [], []⟩
  obtain ⟨h3, h4⟩ := dpLoop_foldl_writes lenTrain accs
    (List.range' (ck.epoch + 1) (epochs + 1 - (ck.epoch + 1)))
    ⟨ck.best_acc, epochs * lenTrain, [], []⟩
  refine ⟨?_, ?_, ?_⟩
  · rw [dpLoop, h1]
    rfl
  · rw [dpLoop, h1, h2]
  · have hrun : dpRun true ck start epochs lenTrain accs =
        dpLoop (ck.epoch + 1) epochs lenTrain accs
          ⟨ck.best_acc, epochs * lenTrain, [], []⟩ := by
      simp [dpRun, dpRestart]
    rw [hrun, dpLoop, h3]
    rfl

/-- **C6.** With `args.evaluate` set, the distribution script loads the given
weights into the unwrapped model (`model_without_ddp.load_state_dict`), runs
exactly one validation pass and returns: the trace contains no `trainPass`
event (hence zero optimizer steps), no scheduler construction or step, and no
checkpoint write — the epoch loop is never entered. -/
theorem c6_evaluate_short_circuit (cfg : DistConfig) (accs : ℕ → ℚ)
    (h : cfg.evaluate = true) :
    distMain cfg accs = [DEv.loadWeightsIntoUnwrapped, DEv.validatePass] ∧
    (distMain cfg accs).count DEv.validatePass = 1 ∧
    (∀ e, DEv.trainPass e ∉ distMain cfg accs) ∧
    DEv.schedulerInit ∉ distMain cfg accs ∧
    DEv.schedulerStep ∉ distMain cfg accs ∧
    DEv.saveBest ∉ distMain cfg accs ∧
    DEv.loadWeightsIntoUnwrapped ∈ distMain cfg accs := by
  have hm : distMain cfg accs =
      [DEv.loadWeightsIntoUnwrapped, DEv.validatePass] := by
    simp [distMain, h]
  rw [hm]
  refine ⟨rfl, by decide, ?_, by decide, by decide, by decide, by decide⟩
  intro e
  simp

/-- Witness for C6: a non-distributed evaluate-only configuration with three
configured epochs. -/
theorem c6_evaluate_short_circuit_witness :
    distMain ⟨false, true, 3⟩ accsEx =
      [DEv.loadWeightsIntoUnwrapped, DEv.validatePass] ∧
    (distMain ⟨false, true, 3⟩ accsEx).count DEv.validatePass = 1 ∧
    (∀ e, DEv.trainPass e ∉ distMain ⟨false, true, 3⟩ accsEx) ∧
    DEv.schedulerInit ∉ distMain ⟨false, true, 3⟩ accsEx ∧
    DEv.schedulerStep ∉ distMain ⟨false, true, 3⟩ accsEx ∧
    DEv.saveBest ∉ distMain ⟨false, true, 3⟩ accsEx ∧
    DEv.loadWeightsIntoUnwrapped ∈ distMain ⟨false, true, 3⟩ accsEx :=
  c6_evaluate_short_circuit ⟨false, true, 3⟩ accsEx rfl

/-- The loop trace distributes over list append (the carried best score is
never reassigned in the source loop, so the state threading is constant). -/
theorem distLoopEvents_append (d : Bool) (accs : ℕ → ℚ) (b : ℚ) :
    ∀ L₁ L₂, distLoopEvents d accs b (L₁ ++ L₂) =
      distLoopEvents d accs b L₁ ++ distLoopEvents d accs b L₂ := by
  intro L₁
  induction L₁ with
  | nil => intro L₂; simp [distLoopEvents]
  | cons f rest ih =>
    intro L₂
    simp [distLoopEvents, ih]

/-- In a non-distributed loop no `setEpoch` event is ever emitted. -/
theorem setEpoch_not_mem_nondist (accs : ℕ → ℚ) (b : ℚ) (e : ℕ) :
    ∀ L, DEv.setEpoch e ∉ distLoopEvents false accs b L := by
  intro L
  induction L with
  | nil => simp [distLoopEvents]
  | cons f rest ih =>
    by_cases h : b < accs f <;> simp [distLoopEvents, h, ih]

/-- Splitting `range' s n` at an element `e`. -/
theorem range'_split_at (s n e : ℕ) (h1 : s ≤ e) (h2 : e < s + n) :
    List.range' s n =
      List.range' s (e - s) ++ e :: List.range' (e + 1) (s + n - e - 1) := by
  have key := List.range'_append s (e - s) (n - (e - s)) 1
  rw [show s + 1 * (e - s) = e by omega] at key
  rw [show n - (e - s) + (e - s) = n by omega] at key
  rw [← key]
  have hn : n - (e - s) = (s + n - e - 1) + 1 := by omega
  rw [hn, List.range'_succ]

/-- **C7.** In every distributed (non-evaluate) run, for every epoch `e` of
the loop, the training sampler's `set_epoch(e)` call occurs in the trace
strictly before that epoch's training pass; and in a non-distributed run no
`set_epoch` call occurs at all. -/
theorem c7_set_epoch_before_train (cfg : DistConfig) (accs : ℕ → ℚ) :
    (cfg.distributed = true → cfg.evaluate = false →
      ∀ e, 1 ≤ e → e ≤ cfg.epochs →
        Precedes (DEv.setEpoch e) (DEv.trainPass e) (distMain cfg accs)) ∧
    (cfg.distributed = false →
      ∀ e, DEv.setEpoch e ∉ distMain cfg accs) := by
  constructor
  · intro hd he e he1 he2
    refine ⟨DEv.schedulerInit ::
        distLoopEvents true accs 0 (List.range' 1 (e - 1)),
      [DEv.trainPass e, DEv.validatePass, DEv.schedulerStep] ++
        ((if (0 : ℚ) < accs e then [DEv.saveBest] else []) ++
          distLoopEvents true accs 0
            (List.range' (e + 1) (1 + cfg.epochs - e - 1))),
      ?_, ?_⟩
    · have hsplit := range'_split_at 1 cfg.epochs e he1 (by omega)
      rw [distMain, if_neg (by rw [he]; exact Bool.false_ne_true), hd,
        hsplit, distLoopEvents_append]
      simp [distLoopEvents]
    · simp
  · intro hd e
    by_cases hev : cfg.evaluate = true
    · simp [distMain, hev]
    · have hev' : cfg.evaluate = false := by
        revert hev
        cases cfg.evaluate <;> simp
      rw [distMain, if_neg (by rw [hev']; exact Bool.false_ne_true), hd]
      intro hmem
      rcases List.mem_cons.mp hmem with h1 | h1
      · exact DEv.noConfusion h1
      · exact setEpoch_not_mem_nondist accs 0 e _ h1

/-- Witness for C7: a two-epoch distributed run, epoch 1; and a
non-distributed run. -/
theorem c7_set_epoch_before_train_witness :
    (Precedes (DEv.setEpoch 1) (DEv.trainPass 1)
      (distMain ⟨true, false, 2⟩ accsEx)) ∧
    (DEv.setEpoch 1 ∉ distMain ⟨false, false, 2⟩ accsEx) :=
  ⟨(c7_set_epoch_before_train ⟨true, false, 2⟩ accsEx).1 rfl rfl 1
      (by decide) (by decide),
   (c7_set_epoch_before_train ⟨false, false, 2⟩ accsEx).2 rfl 1⟩

/-- A rank other than 0 never produces a checkpoint write: `save_on_master`
discards the payload there. -/
theorem distRankWrites_rank_ne_zero (r : ℕ) (hr : r ≠ 0) (accs : ℕ → ℚ)
    (b : ℚ) : ∀ L, distRankWrites r accs b L = [] := by
  intro L
  induction L with
  | nil => rfl
  | cons f rest ih =>
    by_cases h : b < accs f <;>
      simp [distRankWrites, save_on_master, h, hr, ih]

/-- For lists of ranks that exclude rank 0, the combined writes are empty. -/
theorem flatMap_ranks_ne_zero (accs : ℕ → ℚ) (E : List ℕ) :
    ∀ L : List ℕ, (∀ r ∈ L, r ≠ 0) →
      (L.flatMap fun r => distRankWrites r accs 0 E) = [] := by
  intro L
  induction L with
  | nil => intro _; rfl
  | cons f rest ih =>
    intro hall
    rw [List.flatMap_cons,
      distRankWrites_rank_ne_zero f (hall f (List.mem_cons_self f rest)) accs 0,
      List.nil_append]
    exact ih fun r hr => hall r (List.mem_cons_of_mem f hr)

/-- In an `N`-rank run with `N ≥ 1`, the combined checkpoint writes are
exactly rank 0's writes. -/
theorem distAllWrites_eq_rank0 (N : ℕ) (hN : 0 < N) (accs : ℕ → ℚ)
    (epochs : ℕ) :
    distAllWrites N accs epochs =
      distRankWrites 0 accs 0 (List.range' 1 epochs) := by
  obtain ⟨m, rfl⟩ : ∃ m, N = m + 1 := ⟨N - 1, by omega⟩
  rw [distAllWrites, List.range_eq_range', List.range'_succ, List.flatMap_cons]
  rw [flatMap_ranks_ne_zero accs (List.range' 1 epochs) (List.range' (0 + 1) m)
    (fun r hr => by
      have := List.mem_range'_1.mp hr
      omega)]
  simp

/-- Count of rank 0's checkpoint writes for a fixed epoch `e` over a
duplicate-free epoch list: one write exactly when `e` is in the list and its
metric is positive (the source's `is_best` test against the never-updated
`best_acc = 0.0`). -/
theorem distRankWrites_zero_countP (accs : ℕ → ℚ) (e : ℕ) :
    ∀ L : List ℕ, L.Nodup →
      (distRankWrites 0 accs 0 L).countP (fun w => w.epoch == e) =
        if e ∈ L ∧ 0 < accs e then 1 else 0 := by
  intro L
  induction L with
  | nil => intro _; simp [distRankWrites]
  | cons f rest ih =>
    intro hnd
    obtain ⟨hf, hrest⟩ := List.nodup_cons.mp hnd
    have hrec := ih hrest
    by_cases h : (0 : ℚ) < accs f
    · rw [show distRankWrites 0 accs 0 (f :: rest) =
          ⟨f, 0, SavedObj.unwrapped⟩ :: distRankWrites 0 accs 0 rest from by
        simp [distRankWrites, save_on_master, h]]
      rw [List.countP_cons, hrec]
      by_cases hfe : f = e
      · subst hfe
        simp [hf, h]
      · simp only [List.mem_cons]
        have hef : ¬ e = f := fun hh => hfe hh.symm
        simp [hef, hfe]
    · rw [show distRankWrites 0 accs 0 (f :: rest) =
          distRankWrites 0 accs 0 rest from by
        simp [distRankWrites, save_on_master, h]]
      rw [hrec]
      by_cases hfe : f = e
      · subst hfe
        simp [h]
      · have hef : ¬ e = f := fun hh => hfe hh.symm
        simp [hef]

/-- Every write rank 0 produces carries rank 0 and the unwrapped model's
state. -/
theorem distRankWrites_zero_mem (accs : ℕ → ℚ) (b : ℚ) :
    ∀ L, ∀ w ∈ distRankWrites 0 accs b L,
      w.rank = 0 ∧ w.obj = SavedObj.unwrapped := by
  intro L
  induction L with
  | nil => intro w hw; simp [distRankWrites] at hw
  | cons f rest ih =>
    intro w hw
    by_cases h : b < accs f
    · rw [show distRankWrites 0 accs b (f :: rest) =
          ⟨f, 0, SavedObj.unwrapped⟩ :: distRankWrites 0 accs b rest from by
        simp [distRankWrites, save_on_master, h]] at hw
      rcases List.mem_cons.mp hw with h1 | h1
      · subst h1; exact ⟨rfl, rfl⟩
      · exact ih w h1
    · rw [show distRankWrites 0 accs b (f :: rest) =
          distRankWrites 0 accs b rest from by
        simp [distRankWrites, save_on_master, h]] at hw
      exact ih w hw

/-- The spec-side running best score never goes below its initial `0`. -/
theorem specBestAfter_nonneg (accs : ℕ → ℚ) :
    ∀ L, 0 ≤ specBestAfter accs L := by
  intro L
  induction L with
  | nil => exact le_refl 0
  | cons f rest ih => exact le_trans ih le_sup_left

/-- **C8.** In every `N`-rank distributed run (`N ≥ 1`), for every epoch `e`
of the loop in which the validation metric improves (strictly exceeds the
running best over all previous epochs, which starts at `0.0`), exactly one
checkpoint write occurs across all ranks — rank 0's — and every write that
ever occurs is performed by rank 0 and persists the unwrapped model's state.
(`save_on_master` is modelled from the spec, its source `utils.py` not being
among the provided files.) -/
theorem c8_rank_gated_single_write (N epochs e : ℕ) (accs : ℕ → ℚ)
    (hN : 0 < N) (he1 : 1 ≤ e) (he2 : e ≤ epochs)
    (himp : improvesAt accs e) :
    (distAllWrites N accs epochs).countP (fun w => w.epoch == e) = 1 ∧
    ∀ w ∈ distAllWrites N accs epochs,
      w.rank = 0 ∧ w.obj = SavedObj.unwrapped := by
  have hpos : (0 : ℚ) < accs e :=
    lt_of_le_of_lt (specBestAfter_nonneg accs (List.range' 1 (e - 1))) himp
  rw [distAllWrites_eq_rank0 N hN accs epochs]
  constructor
  · rw [distRankWrites_zero_countP accs e (List.range' 1 epochs)
      (List.nodup_range' 1 epochs)]
    have hmem : e ∈ List.range' 1 epochs :=
      List.mem_range'_1.mpr ⟨he1, by omega⟩
    simp [hmem, hpos]
  · exact distRankWrites_zero_mem accs 0 (List.range' 1 epochs)

/-- Witness for C8: a 2-rank run over 2 epochs with metrics (50, 30); epoch 1
improves. -/
theorem c8_rank_gated_single_write_witness :
    (distAllWrites 2 accsEx 2).countP (fun w => w.epoch == 1) = 1 ∧
    ∀ w ∈ distAllWrites 2 accsEx 2,
      w.rank = 0 ∧ w.obj = SavedObj.unwrapped :=
  c8_rank_gated_single_write 2 2 1 accsEx (by decide) (by decide) (by decide)
    (by unfold improvesAt; decide)

/-- **C9 (counterexample).** In the dp script configured with
`path2weight = "savedweight"`, startup creates only the directory
`"savedweight"`, while the resume-checkpoint bundle is written into the
hard-coded directory `"weight"` — a directory the program never creates —
refuting "every directory into which the program writes weights or
checkpoints is created at startup ... including the directory of the
resume-checkpoint path". -/
theorem c9_checkpoint_dir_not_created_cex :
    (dpCheckpointWrite "food101").dir ∉ dpDirsCreated "savedweight" ∧
    (dpCheckpointWrite "food101").dir = "weight" ∧
    dpDirsCreated "savedweight" = ["savedweight"] := by
  refine ⟨by decide, rfl, rfl⟩

/-- **C9 (amended).** The anime and distribution scripts create their fixed
`weight` output directory at startup, which is the directory of their only
persisted file; the dp script creates the configured `path2weight` directory,
which is the directory of its best-weights write — but its resume-checkpoint
bundle goes to the hard-coded directory `weight`, which is among the
directories created at startup only when `path2weight = "weight"`. -/
theorem c9_dirs_created_amended (path2weight exp_name : String) :
    animeBestWrite.dir ∈ animeDirsCreated ∧
    (dpBestWrite path2weight exp_name).dir ∈ dpDirsCreated path2weight ∧
    (path2weight = "weight" →
      (dpCheckpointWrite exp_name).dir ∈ dpDirsCreated path2weight) := by
  refine ⟨by decide, List.mem_singleton.mpr rfl, fun h => ?_⟩
  rw [h]
  exact List.mem_singleton.mpr rfl

/-- Witness for C9 (amended) at `path2weight = "weight"`,
`exp_name = "food101"`. -/
theorem c9_dirs_created_amended_witness :
    animeBestWrite.dir ∈ animeDirsCreated ∧
    (dpBestWrite "weight" "food101").dir ∈ dpDirsCreated "weight" ∧
    ("weight" = "weight" →
      (dpCheckpointWrite "food101").dir ∈ dpDirsCreated "weight") :=
  c9_dirs_created_amended "weight" "food101"

/-- Witness for C10 at `batch_size = 5`, `workers = 7`,
`ngpus_per_node = 3`. -/
theorem c10_per_process_batch_workers_witness :
    (distAdjust true 5 7 3).1 * 3 ≤ 5 ∧
    5 < (distAdjust true 5 7 3).1 * 3 + 3 ∧
    7 ≤ (distAdjust true 5 7 3).2 * 3 ∧
    (distAdjust true 5 7 3).2 * 3 < 7 + 3 ∧
    (5 < 3 → (distAdjust true 5 7 3).1 = 0) ∧
    distAdjust false 5 7 3 = (5, 7) :=
  c10_per_process_batch_workers 5 7 3 (by decide)

end TutorialPytorch
